import Mathlib

/-!
Shallow embedding of the game-state core of `the_snake.py`: grid constants,
the snake state machine (`update_direction`, `move`, `reset`), apple placement
(`randomize_position`), the input handler (`handle_keys`) and the per-tick
game loop body from `main`.  Coordinates are pixel coordinates (Python ints),
modelled as `Int`; Python's `%` on a positive modulus agrees with `Int.emod`.
Random draws (`choice` of a direction on reset, `randint` grid cell for the
apple) are injected as explicit parameters.
-/

namespace TheSnake

/-- Screen width in pixels (`SCREEN_WIDTH = 640`). -/
def SCREEN_WIDTH : Int := 640

/-- Screen height in pixels (`SCREEN_HEIGHT = 480`). -/
def SCREEN_HEIGHT : Int := 480

/-- Size of one grid cell in pixels (`GRID_SIZE = 20`). -/
def GRID_SIZE : Int := 20

/-- Number of grid columns (`GRID_WIDTH = SCREEN_WIDTH // GRID_SIZE`). -/
def GRID_WIDTH : Int := SCREEN_WIDTH / GRID_SIZE

/-- Number of grid rows (`GRID_HEIGHT = SCREEN_HEIGHT // GRID_SIZE`). -/
def GRID_HEIGHT : Int := SCREEN_HEIGHT / GRID_SIZE

/-- A position on the board: a pair of pixel coordinates, as in the source
where positions are `(x, y)` tuples of ints. -/
abbrev Cell := Int × Int

/-- The four movement directions `UP`, `DOWN`, `LEFT`, `RIGHT` of the source. -/
inductive Dir : Type where
  | up
  | down
  | left
  | right
deriving DecidableEq, Repr

/-- The `(dx, dy)` unit vector each direction constant denotes in the source:
`UP = (0, -1)`, `DOWN = (0, 1)`, `LEFT = (-1, 0)`, `RIGHT = (1, 0)`. -/
def dirVec : Dir → Int × Int
  | Dir.up => (0, -1)
  | Dir.down => (0, 1)
  | Dir.left => (-1, 0)
  | Dir.right => (1, 0)

/-- Geometric opposite of a direction. -/
def oppositeDir : Dir → Dir
  | Dir.up => Dir.down
  | Dir.down => Dir.up
  | Dir.left => Dir.right
  | Dir.right => Dir.left

/-- State of the `Snake` object: `length` is the target length counter,
`positions` the ordered segment list (head first), `direction` the committed
direction, `next_direction` the pending requested direction (`None` or one of
the four constants), `last` the tail cell dropped on the most recent move. -/
structure SnakeState : Type where
  length : Nat
  positions : List Cell
  direction : Dir
  next_direction : Option Dir
  last : Option Cell
deriving DecidableEq, Repr

/-- Default `GameObject` position: the screen center
`((SCREEN_WIDTH // 2), (SCREEN_HEIGHT // 2))`. -/
def centerPosition : Cell := (SCREEN_WIDTH / 2, SCREEN_HEIGHT / 2)

/-- The snake produced by `Snake.__init__`: length 1, a single segment at the
screen center, direction `RIGHT`, no pending direction, no dropped tail. -/
def initialSnake : SnakeState :=
  { length := 1
    positions := [centerPosition]
    direction := Dir.right
    next_direction := none
    last := none }

/-- Embedding of `Snake.get_head_position`: the first element of `positions`. -/
def get_head_position (s : SnakeState) : Cell := s.positions.headI

/-- Embedding of `Snake.update_direction`: if `next_direction` is set, commit
it into `direction` and clear it; otherwise do nothing.  The source performs
no reversal check here. -/
def update_direction (s : SnakeState) : SnakeState :=
  match s.next_direction with
  | some d => { s with direction := d, next_direction := none }
  | none => s

/-- Candidate new head cell computed at the top of `Snake.move`:
`((cur_x + dx * GRID_SIZE) % SCREEN_WIDTH, (cur_y + dy * GRID_SIZE) % SCREEN_HEIGHT)`. -/
def new_position (s : SnakeState) : Cell :=
  let cur := get_head_position s
  let d := dirVec s.direction
  ((cur.1 + d.1 * GRID_SIZE) % SCREEN_WIDTH, (cur.2 + d.2 * GRID_SIZE) % SCREEN_HEIGHT)

/-- Embedding of `Snake.reset` with the random `choice([UP, DOWN, LEFT, RIGHT])`
draw injected as `c`: length 1, a single segment at the screen center, no
dropped tail, direction set to the drawn value.  `next_direction` is not
touched by `reset` in the source. -/
def reset (c : Dir) (s : SnakeState) : SnakeState :=
  { length := 1
    positions := [centerPosition]
    direction := c
    next_direction := s.next_direction
    last := none }

/-- The commit branch of `Snake.move`: prepend the new head; if the segment
count now exceeds `length`, pop the tail into `last`, else set `last` to none. -/
def move_commit (s : SnakeState) : SnakeState :=
  let ps := new_position s :: s.positions
  if ps.length > s.length then
    { s with positions := ps.dropLast, last := ps.getLast? }
  else
    { s with positions := ps, last := none }

/-- Embedding of `Snake.move` with the reset direction draw injected as `c`:
if the candidate head lies in `positions[2:]`, perform `reset` and return;
otherwise commit the move. -/
def move (c : Dir) (s : SnakeState) : SnakeState :=
  if new_position s ∈ s.positions.drop 2 then reset c s else move_commit s

/-- A draw of `randint(0, GRID_WIDTH - 1)` and `randint(0, GRID_HEIGHT - 1)`:
a pair of column and row indices within the inclusive ranges the source
requests. -/
def RandCell : Type :=
  { p : Int × Int //
    0 ≤ p.1 ∧ p.1 ≤ GRID_WIDTH - 1 ∧ 0 ≤ p.2 ∧ p.2 ≤ GRID_HEIGHT - 1 }

instance : DecidableEq RandCell := fun a b =>
  decidable_of_iff (a.val = b.val) Subtype.ext_iff.symm

/-- Embedding of `Apple.randomize_position` with the two `randint` draws
injected: the new apple cell is
`(randint(0, GRID_WIDTH - 1) * GRID_SIZE, randint(0, GRID_HEIGHT - 1) * GRID_SIZE)`. -/
def randomize_position (r : RandCell) : Cell :=
  (r.val.1 * GRID_SIZE, r.val.2 * GRID_SIZE)

/-- One key press handled by `handle_keys`: for a request `r`, the pending
direction is set to `r` only when the current committed direction is not the
opposite of `r` (e.g. `K_UP` requires `direction != DOWN`). -/
def handle_one (s : SnakeState) (r : Dir) : SnakeState :=
  if s.direction ≠ oppositeDir r then { s with next_direction := some r } else s

/-- Embedding of `handle_keys`: fold the directional key events of the tick,
in order, through `handle_one`.  Quit events are outside the core. -/
def handle_keys (events : List Dir) (s : SnakeState) : SnakeState :=
  events.foldl handle_one s

/-- The random draws and input events one game-loop iteration may consume:
the key events drained this tick, the direction `choice` used if the move
resets, and the `randint` cell used if the apple is relocated. -/
structure TickInput : Type where
  events : List Dir
  resetDir : Dir
  appleR : RandCell
deriving DecidableEq

/-- Combined state of the game loop: the snake and the apple position. -/
structure GameState : Type where
  snake : SnakeState
  apple : Cell
deriving DecidableEq, Repr

/-- One iteration of the `while True` loop in `main`: `handle_keys`, then
`snake.update_direction()`, then `snake.move()`, then if the head equals the
apple position, `snake.length += 1` and `apple.randomize_position()`. -/
def tick (g : GameState) (i : TickInput) : GameState :=
  let s1 := handle_keys i.events g.snake
  let s2 := update_direction s1
  let s3 := move i.resetDir s2
  if get_head_position s3 = g.apple then
    { snake := { s3 with length := s3.length + 1 }
      apple := randomize_position i.appleR }
  else
    { snake := s3, apple := g.apple }

/-- The state `main` starts the loop with: a fresh snake and an apple at a
random cell (the `Apple.__init__` draw injected as `r0`). -/
def initialGame (r0 : RandCell) : GameState :=
  { snake := initialSnake, apple := randomize_position r0 }

/-- Run the game loop for a list of tick inputs from the initial state. -/
def runTicks (r0 : RandCell) (is : List TickInput) : GameState :=
  is.foldl tick (initialGame r0)

/-- The mutating operations the source ever applies to the snake and apple:
a `move` (with its reset draw), the `snake.length += 1` growth step, a direct
`reset`, storing a pending direction (as `handle_keys` does), committing it
(`update_direction`), and an apple `randomize_position`. -/
inductive GameOp : Type where
  | advance (c : Dir)
  | grow
  | resetOp (c : Dir)
  | setNext (d : Option Dir)
  | updateDir
  | relocate (r : RandCell)

/-- Apply one operation to the combined game state. -/
def applyOp (g : GameState) : GameOp → GameState
  | GameOp.advance c => { g with snake := move c g.snake }
  | GameOp.grow => { g with snake := { g.snake with length := g.snake.length + 1 } }
  | GameOp.resetOp c => { g with snake := reset c g.snake }
  | GameOp.setNext d => { g with snake := { g.snake with next_direction := d } }
  | GameOp.updateDir => { g with snake := update_direction g.snake }
  | GameOp.relocate r => { g with apple := randomize_position r }

/-- Run a sequence of operations from the freshly constructed state. -/
def runOps (r0 : RandCell) (ops : List GameOp) : GameState :=
  ops.foldl applyOp (initialGame r0)

/-- A cell is grid-aligned and on the board: both coordinates are multiples
of `GRID_SIZE`, with `0 ≤ x < SCREEN_WIDTH` and `0 ≤ y < SCREEN_HEIGHT`. -/
def alignedCell (p : Cell) : Prop :=
  p.1 % GRID_SIZE = 0 ∧ 0 ≤ p.1 ∧ p.1 < SCREEN_WIDTH ∧
  p.2 % GRID_SIZE = 0 ∧ 0 ≤ p.2 ∧ p.2 < SCREEN_HEIGHT

instance (p : Cell) : Decidable (alignedCell p) := by
  unfold alignedCell
  infer_instance

/-- Apple draw for column 17, row 12: the cell `(340, 240)`. -/
def rCell17_12 : RandCell := ⟨(17, 12), by decide⟩

/-- Apple draw for column 18, row 12: the cell `(360, 240)`. -/
def rCell18_12 : RandCell := ⟨(18, 12), by decide⟩

/-- Apple draw for column 18, row 11: the cell `(360, 220)`. -/
def rCell18_11 : RandCell := ⟨(18, 11), by decide⟩

/-- Apple draw for column 16, row 12: the screen-center cell `(320, 240)`. -/
def rCell16_12 : RandCell := ⟨(16, 12), by decide⟩

/-- Apple draw for column 0, row 0: the cell `(0, 0)`. -/
def rCell0_0 : RandCell := ⟨(0, 0), by decide⟩

/-- A four-tick input trace: eat apples at `(340,240)`, `(360,240)` and
`(360,220)` while turning up then left, with the third relocation placing the
apple on the screen center.  After these ticks the snake has length 4,
direction `LEFT`, head `(340, 220)`, and the apple sits at the center. -/
def traceInputs4 : List TickInput :=
  [ ⟨[], Dir.up, rCell18_12⟩,
    ⟨[], Dir.up, rCell18_11⟩,
    ⟨[Dir.up], Dir.up, rCell16_12⟩,
    ⟨[Dir.left], Dir.up, rCell16_12⟩ ]

/-- A fifth tick input: request `DOWN`, which makes the head land on the
fourth segment, so the move resets; the injected reset draw is `RIGHT` and
the apple draw (consumed because the reset head equals the center apple)
is `(0, 0)`. -/
def tick5Input : TickInput := ⟨[Dir.down], Dir.right, rCell0_0⟩

/-- A length-4 snake about to run its head (moving down from `(320,220)`)
into its fourth segment `(320,240)`. -/
def collidingSnake : SnakeState :=
  { length := 4
    positions := [(320, 220), (300, 220), (300, 240), (320, 240)]
    direction := Dir.down
    next_direction := none
    last := none }

/-- A snake moving right whose pending direction is `LEFT`, the geometric
opposite of its committed direction. -/
def reversalPendingSnake : SnakeState :=
  { length := 1
    positions := [centerPosition]
    direction := Dir.right
    next_direction := some Dir.left
    last := none }

/-- A length-2 snake doubling back on itself (direction left, head right of
the neck), used to witness the short-snake no-reset property. -/
def shortSnake : SnakeState :=
  { length := 2
    positions := [(340, 240), (320, 240)]
    direction := Dir.left
    next_direction := none
    last := none }

/-- A game state whose snake is `collidingSnake` and whose apple is away
from the screen center, at `(0, 0)`. -/
def collidingGameAppleAway : GameState :=
  { snake := collidingSnake, apple := (0, 0) }

/-- A snake whose head sits in the rightmost column of the middle row,
moving right, about to wrap to column 0. -/
def rightEdgeSnake : SnakeState :=
  { length := 1
    positions := [(620, 240)]
    direction := Dir.right
    next_direction := none
    last := none }

/-- The snake state just before `snake.move()` runs within a tick: key
events handled, pending direction committed. -/
def preMoveState (g : GameState) (i : TickInput) : SnakeState :=
  update_direction (handle_keys i.events g.snake)

/-- A tick input with no key events, an upward reset draw and the `(0, 0)`
apple draw. -/
def plainInput : TickInput := ⟨[], Dir.up, rCell0_0⟩

/-! ### General lemmas about the embedded operations -/

/-- Taking the opposite direction twice is the identity. -/
theorem oppositeDir_involutive (d : Dir) : oppositeDir (oppositeDir d) = d := by
  cases d <;> rfl

/-- No direction equals its own opposite. -/
theorem ne_oppositeDir_self (d : Dir) : d ≠ oppositeDir d := by
  cases d <;> decide

/-- Handling key events never changes the committed direction, the target
length or the segments, and it can only leave the pending direction alone
or set it to a request that is not blocked against the committed direction. -/
theorem handle_keys_spec (events : List Dir) (s : SnakeState) :
    (handle_keys events s).direction = s.direction ∧
    (handle_keys events s).length = s.length ∧
    (handle_keys events s).positions = s.positions ∧
    (handle_keys events s).last = s.last ∧
    ((handle_keys events s).next_direction = s.next_direction ∨
      ∃ r, (handle_keys events s).next_direction = some r ∧
        s.direction ≠ oppositeDir r) := by
  induction events generalizing s with
  | nil => simp [handle_keys]
  | cons e rest ih =>
    have step : handle_keys (e :: rest) s = handle_keys rest (handle_one s e) := rfl
    rw [step]
    by_cases hg : s.direction ≠ oppositeDir e
    · have h1 : handle_one s e = { s with next_direction := some e } := by
        simp [handle_one, hg]
      rw [h1]
      obtain ⟨hdir, hlen, hpos, hlast, hnext⟩ := ih { s with next_direction := some e }
      refine ⟨by simpa using hdir, by simpa using hlen, by simpa using hpos,
        by simpa using hlast, ?_⟩
      rcases hnext with h | ⟨r, hr, hblock⟩
      · exact Or.inr ⟨e, by simpa using h, hg⟩
      · exact Or.inr ⟨r, hr, by simpa using hblock⟩
    · have h1 : handle_one s e = s := by
        simp [handle_one, hg]
      rw [h1]
      exact ih s

/-- After `update_direction` the pending direction is always cleared. -/
theorem update_direction_next_none (s : SnakeState) :
    (update_direction s).next_direction = none := by
  cases h : s.next_direction <;> simp [update_direction, h]

/-- Updating the direction changes neither the segments nor the length nor
the dropped tail. -/
theorem update_direction_preserves (s : SnakeState) :
    (update_direction s).positions = s.positions ∧
    (update_direction s).length = s.length ∧
    (update_direction s).last = s.last := by
  cases h : s.next_direction <;> simp [update_direction, h]

/-- The direction after `update_direction` is the old direction or a pending
direction that was set. -/
theorem update_direction_direction (s : SnakeState) :
    (update_direction s).direction = s.direction ∨
    s.next_direction = some (update_direction s).direction := by
  cases h : s.next_direction <;> simp [update_direction, h]

/-- The commit branch of `move` keeps the direction, the pending direction
and the length. -/
theorem move_commit_preserves (s : SnakeState) :
    (move_commit s).direction = s.direction ∧
    (move_commit s).next_direction = s.next_direction ∧
    (move_commit s).length = s.length := by
  unfold move_commit
  dsimp only
  split <;> simp

/-- When the segment count and the target length differ by at most the one
cell just prepended, the commit branch of `move` leaves exactly `length`
segments. -/
theorem move_commit_length (s : SnakeState)
    (hinv : s.positions.length = s.length ∨ s.positions.length + 1 = s.length) :
    (move_commit s).positions.length = s.length := by
  unfold move_commit
  dsimp only
  split
  case isTrue h =>
    dsimp only
    simp only [List.length_dropLast, List.length_cons] at *
    omega
  case isFalse h =>
    dsimp only
    simp only [List.length_cons] at *
    omega

/-- The move keeps the pending direction (the reset branch copies it, the
commit branch does not touch it). -/
theorem move_next_direction (c : Dir) (s : SnakeState) :
    (move c s).next_direction = s.next_direction := by
  unfold move
  split
  · rfl
  · exact (move_commit_preserves s).2.1

/-- After a move from a state where the segment count and target length
differ by at most one, the segment count equals the target length. -/
theorem move_length_invariant (c : Dir) (s : SnakeState)
    (hinv : s.positions.length = s.length ∨ s.positions.length + 1 = s.length) :
    (move c s).positions.length = (move c s).length := by
  unfold move
  split
  · rfl
  · rw [move_commit_length s hinv, (move_commit_preserves s).2.2]

/-- The pending direction is cleared at every tick boundary. -/
theorem tick_next_direction_none (g : GameState) (i : TickInput) :
    (tick g i).snake.next_direction = none := by
  simp only [tick]
  split <;> simp [move_next_direction, update_direction_next_none]

/-- In every state reachable by running the game loop, the pending direction
is `None`. -/
theorem runTicks_next_direction_none (r0 : RandCell) (is : List TickInput) :
    (runTicks r0 is).snake.next_direction = none := by
  unfold runTicks
  have key : ∀ (l : List TickInput) (g : GameState),
      g.snake.next_direction = none →
      (l.foldl tick g).snake.next_direction = none := by
    intro l
    induction l with
    | nil => intro g hg; exact hg
    | cons i rest ih =>
      intro g _
      exact ih (tick g i) (tick_next_direction_none g i)
  exact key is (initialGame r0) rfl

/-- The segment count in every reachable state is the target length or one
less (the latter immediately after an apple was eaten). -/
theorem runTicks_length_invariant (r0 : RandCell) (is : List TickInput) :
    (runTicks r0 is).snake.positions.length = (runTicks r0 is).snake.length ∨
    (runTicks r0 is).snake.positions.length + 1 = (runTicks r0 is).snake.length := by
  unfold runTicks
  have step : ∀ (g : GameState) (i : TickInput),
      (g.snake.positions.length = g.snake.length ∨
        g.snake.positions.length + 1 = g.snake.length) →
      ((tick g i).snake.positions.length = (tick g i).snake.length ∨
        (tick g i).snake.positions.length + 1 = (tick g i).snake.length) := by
    intro g i hinv
    obtain ⟨_, hlen1, hpos1, _, _⟩ := handle_keys_spec i.events g.snake
    obtain ⟨hpos2, hlen2, _⟩ := update_direction_preserves (handle_keys i.events g.snake)
    have hinv2 : (update_direction (handle_keys i.events g.snake)).positions.length =
          (update_direction (handle_keys i.events g.snake)).length ∨
        (update_direction (handle_keys i.events g.snake)).positions.length + 1 =
          (update_direction (handle_keys i.events g.snake)).length := by
      rw [hpos2, hlen2, hpos1, hlen1]
      exact hinv
    have hm := move_length_invariant i.resetDir _ hinv2
    simp only [tick]
    split
    · dsimp only
      omega
    · dsimp only
      omega
  have key : ∀ (l : List TickInput) (g : GameState),
      (g.snake.positions.length = g.snake.length ∨
        g.snake.positions.length + 1 = g.snake.length) →
      ((l.foldl tick g).snake.positions.length = (l.foldl tick g).snake.length ∨
        (l.foldl tick g).snake.positions.length + 1 = (l.foldl tick g).snake.length) := by
    intro l
    induction l with
    | nil => intro g hg; exact hg
    | cons i rest ih => intro g hg; exact ih (tick g i) (step g i hg)
  exact key is (initialGame r0) (Or.inl rfl)

/-- Unfolding of `new_position` given the head cell. -/
theorem new_position_eq (s : SnakeState) (x y : Int)
    (hhead : get_head_position s = (x, y)) :
    new_position s =
      ((x + (dirVec s.direction).1 * GRID_SIZE) % SCREEN_WIDTH,
        (y + (dirVec s.direction).2 * GRID_SIZE) % SCREEN_HEIGHT) := by
  unfold new_position
  rw [hhead]

/-! ### Claim theorems -/

/-- C1: whenever the candidate new head lies in `segments[2:]`, `advance()`
performs the reset transition: afterwards the segments are the single
screen-center cell, the target length is 1, the dropped-tail record is none,
and the direction is exactly the value drawn from the injected random source;
no head is prepended and no tail is popped on that call. -/
theorem c1_self_collision_resets (s : SnakeState) (c : Dir)
    (h : new_position s ∈ s.positions.drop 2) :
    (move c s).positions = [centerPosition] ∧
    (move c s).length = 1 ∧
    (move c s).last = none ∧
    (move c s).direction = c := by
  simp [move, h, reset]

/-- Witness for C1: a concrete length-4 snake whose downward move lands on
its fourth segment resets to center with the drawn direction. -/
theorem c1_self_collision_resets_witness :
    new_position collidingSnake ∈ collidingSnake.positions.drop 2 ∧
    ((move Dir.up collidingSnake).positions = [centerPosition] ∧
      (move Dir.up collidingSnake).length = 1 ∧
      (move Dir.up collidingSnake).last = none ∧
      (move Dir.up collidingSnake).direction = Dir.up) :=
  ⟨by decide, c1_self_collision_resets collidingSnake Dir.up (by decide)⟩

/-- C2: the candidate head always wraps toroidally: each coordinate is
non-negative and strictly below the extent of its axis, and from each of the
four edges the head re-enters on the opposite edge with the other coordinate
unchanged. -/
theorem c2_toroidal_wrap (s : SnakeState) :
    (0 ≤ (new_position s).1 ∧ (new_position s).1 < SCREEN_WIDTH ∧
      0 ≤ (new_position s).2 ∧ (new_position s).2 < SCREEN_HEIGHT) ∧
    (∀ x y : Int, 0 ≤ x → x < SCREEN_WIDTH → 0 ≤ y → y < SCREEN_HEIGHT →
      get_head_position s = (x, y) →
      ((s.direction = Dir.right → x = SCREEN_WIDTH - GRID_SIZE →
          new_position s = (0, y)) ∧
        (s.direction = Dir.left → x = 0 →
          new_position s = (SCREEN_WIDTH - GRID_SIZE, y)) ∧
        (s.direction = Dir.down → y = SCREEN_HEIGHT - GRID_SIZE →
          new_position s = (x, 0)) ∧
        (s.direction = Dir.up → y = 0 →
          new_position s = (x, SCREEN_HEIGHT - GRID_SIZE)))) := by
  constructor
  · rw [new_position_eq s (get_head_position s).1 (get_head_position s).2 rfl]
    exact ⟨Int.emod_nonneg _ (by decide), Int.emod_lt_of_pos _ (by decide),
      Int.emod_nonneg _ (by decide), Int.emod_lt_of_pos _ (by decide)⟩
  · intro x y hx hxW hy hyH hhead
    refine ⟨?_, ?_, ?_, ?_⟩ <;> intro hdir hedge <;>
      rw [new_position_eq s x y hhead, hdir] <;>
      simp only [dirVec, SCREEN_WIDTH, SCREEN_HEIGHT, GRID_SIZE,
        Prod.mk.injEq] <;>
      simp only [SCREEN_WIDTH, SCREEN_HEIGHT, GRID_SIZE] at hedge hxW hyH <;>
      constructor <;> omega

/-- Witness for C2: the edge cases evaluated for a snake whose head sits at
the rightmost column of the middle row, moving right. -/
theorem c2_toroidal_wrap_witness :
    (0 ≤ (new_position rightEdgeSnake).1 ∧
      (new_position rightEdgeSnake).1 < SCREEN_WIDTH ∧
      0 ≤ (new_position rightEdgeSnake).2 ∧
      (new_position rightEdgeSnake).2 < SCREEN_HEIGHT) ∧
    new_position rightEdgeSnake = (0, 240) :=
  ⟨(c2_toroidal_wrap rightEdgeSnake).1,
    ((c2_toroidal_wrap rightEdgeSnake).2 620 240 (by decide) (by decide)
        (by decide) (by decide) (by decide)).1 (by decide) (by decide)⟩

/-- C4 counterexample: a snake moving right with pending direction `LEFT`
(the geometric opposite) has its direction changed by `update_direction`,
refuting the claim that the opposite request leaves the direction unchanged:
the source commits the pending direction without any reversal check. -/
theorem c4_counterexample :
    reversalPendingSnake.next_direction =
      some (oppositeDir reversalPendingSnake.direction) ∧
    reversalPendingSnake.direction = Dir.right ∧
    (update_direction reversalPendingSnake).direction = Dir.left := by
  decide

/-- C4 amended: `update_direction` commits a set pending direction into the
committed direction unconditionally — with no reversal check — and clears it;
when no pending direction is set it does nothing. -/
theorem c4_pending_committed_unconditionally (s : SnakeState) :
    (∀ d : Dir, s.next_direction = some d →
      update_direction s = { s with direction := d, next_direction := none }) ∧
    (s.next_direction = none → update_direction s = s) := by
  constructor
  · intro d hd
    simp [update_direction, hd]
  · intro hn
    simp [update_direction, hn]

/-- Witness for the amended C4: the opposite pending request is committed. -/
theorem c4_pending_committed_unconditionally_witness :
    reversalPendingSnake.next_direction = some Dir.left ∧
    update_direction reversalPendingSnake =
      { reversalPendingSnake with direction := Dir.left, next_direction := none } :=
  ⟨by decide,
    (c4_pending_committed_unconditionally reversalPendingSnake).1 Dir.left (by decide)⟩

/-- C7: a snake with at most two segments can never trigger the reset
transition: the slice `segments[2:]` the collision check ranges over is
empty, so `move` always takes the commit branch, for every direction,
pending request and reset draw. -/
theorem c7_short_snake_never_resets (s : SnakeState) (c : Dir)
    (h : s.positions.length ≤ 2) :
    s.positions.drop 2 = [] ∧
    new_position s ∉ s.positions.drop 2 ∧
    move c s = move_commit s := by
  have hd : s.positions.drop 2 = [] := List.drop_eq_nil_of_le h
  refine ⟨hd, ?_, ?_⟩
  · rw [hd]
    simp
  · unfold move
    rw [hd]
    simp

/-- Witness for C7: a length-2 snake doubling back onto its own neck still
commits the move instead of resetting. -/
theorem c7_short_snake_never_resets_witness :
    shortSnake.positions.length ≤ 2 ∧
    (shortSnake.positions.drop 2 = [] ∧
      new_position shortSnake ∉ shortSnake.positions.drop 2 ∧
      move Dir.up shortSnake = move_commit shortSnake) :=
  ⟨by decide, c7_short_snake_never_resets shortSnake Dir.up (by decide)⟩

/-- C3: from every state the game loop can reach, on a tick whose move is
not a reset, the segment count immediately before tail-drop resolution (the
list with the new head prepended) is the target length or the target length
plus one, and after tail-drop resolution it is exactly the target length. -/
theorem c3_segment_count_bracket (r0 : RandCell) (is : List TickInput)
    (i : TickInput)
    (hcol : new_position (preMoveState (runTicks r0 is) i) ∉
      (preMoveState (runTicks r0 is) i).positions.drop 2) :
    ((new_position (preMoveState (runTicks r0 is) i) ::
          (preMoveState (runTicks r0 is) i).positions).length =
        (preMoveState (runTicks r0 is) i).length ∨
      (new_position (preMoveState (runTicks r0 is) i) ::
          (preMoveState (runTicks r0 is) i).positions).length =
        (preMoveState (runTicks r0 is) i).length + 1) ∧
    (move i.resetDir (preMoveState (runTicks r0 is) i)).positions.length =
      (preMoveState (runTicks r0 is) i).length := by
  have hinv := runTicks_length_invariant r0 is
  obtain ⟨_, hlen1, hpos1, _, _⟩ := handle_keys_spec i.events (runTicks r0 is).snake
  obtain ⟨hpos2, hlen2, _⟩ :=
    update_direction_preserves (handle_keys i.events (runTicks r0 is).snake)
  have hinv2 : (preMoveState (runTicks r0 is) i).positions.length =
        (preMoveState (runTicks r0 is) i).length ∨
      (preMoveState (runTicks r0 is) i).positions.length + 1 =
        (preMoveState (runTicks r0 is) i).length := by
    unfold preMoveState
    rw [hpos2, hlen2, hpos1, hlen1]
    exact hinv
  constructor
  · simp only [List.length_cons]
    rcases hinv2 with h | h
    · right
      omega
    · left
      omega
  · have hm : move i.resetDir (preMoveState (runTicks r0 is) i) =
        move_commit (preMoveState (runTicks r0 is) i) := by
      unfold move
      rw [if_neg hcol]
    rw [hm]
    exact move_commit_length _ hinv2

/-- Witness for C3: the first tick from the initial state, with a turn
upward, keeps the counts bracketed as claimed. -/
theorem c3_segment_count_bracket_witness :
    new_position (preMoveState (runTicks rCell0_0 []) ⟨[Dir.up], Dir.up, rCell0_0⟩) ∉
      (preMoveState (runTicks rCell0_0 []) ⟨[Dir.up], Dir.up, rCell0_0⟩).positions.drop 2 ∧
    (((new_position (preMoveState (runTicks rCell0_0 []) ⟨[Dir.up], Dir.up, rCell0_0⟩) ::
          (preMoveState (runTicks rCell0_0 []) ⟨[Dir.up], Dir.up, rCell0_0⟩).positions).length =
        (preMoveState (runTicks rCell0_0 []) ⟨[Dir.up], Dir.up, rCell0_0⟩).length ∨
      (new_position (preMoveState (runTicks rCell0_0 []) ⟨[Dir.up], Dir.up, rCell0_0⟩) ::
          (preMoveState (runTicks rCell0_0 []) ⟨[Dir.up], Dir.up, rCell0_0⟩).positions).length =
        (preMoveState (runTicks rCell0_0 []) ⟨[Dir.up], Dir.up, rCell0_0⟩).length + 1) ∧
    (move Dir.up (preMoveState (runTicks rCell0_0 []) ⟨[Dir.up], Dir.up, rCell0_0⟩)).positions.length =
      (preMoveState (runTicks rCell0_0 []) ⟨[Dir.up], Dir.up, rCell0_0⟩).length) :=
  ⟨by decide, c3_segment_count_bracket rCell0_0 [] ⟨[Dir.up], Dir.up, rCell0_0⟩ (by decide)⟩

/-- C5 counterexample: a reachable five-tick run whose last tick is a reset
with the apple sitting on the grid-center cell; the tick nevertheless
increments the target length to 2 and relocates the apple, because the
apple check in `main` runs unconditionally after `snake.move()`. -/
theorem c5_counterexample :
    new_position (preMoveState (runTicks rCell17_12 traceInputs4) tick5Input) ∈
      (preMoveState (runTicks rCell17_12 traceInputs4) tick5Input).positions.drop 2 ∧
    (runTicks rCell17_12 traceInputs4).apple = centerPosition ∧
    (runTicks rCell17_12 (traceInputs4 ++ [tick5Input])).snake.length = 2 ∧
    (runTicks rCell17_12 (traceInputs4 ++ [tick5Input])).apple = (0, 0) ∧
    ((0, 0) : Cell) ≠ centerPosition := by
  decide

/-- C5 amended: on a reset tick `move` itself performs no growth, but the
remainder of the tick is not aborted: the apple check still runs against the
reset head at the grid center, so the snake keeps target length 1 and the
apple stays put exactly when the apple is not the center cell; when the
apple is the center cell, the target length becomes 2 and the apple is
relocated on that same tick. -/
theorem c5_reset_tick_runs_apple_check (g : GameState) (i : TickInput)
    (hcol : new_position (preMoveState g i) ∈
      (preMoveState g i).positions.drop 2) :
    (g.apple ≠ centerPosition →
      tick g i = { snake := reset i.resetDir (preMoveState g i), apple := g.apple }) ∧
    (g.apple = centerPosition →
      (tick g i).snake.length = 2 ∧
      (tick g i).snake.positions = [centerPosition] ∧
      (tick g i).apple = randomize_position i.appleR) := by
  have hmove : move i.resetDir (preMoveState g i) =
      reset i.resetDir (preMoveState g i) := by
    unfold move
    rw [if_pos hcol]
  unfold preMoveState at hmove
  constructor
  · intro hne
    simp only [tick, hmove]
    rw [if_neg]
    · unfold preMoveState
      rfl
    · exact fun hcontra => hne hcontra.symm
  · intro heq
    simp only [tick, hmove]
    rw [if_pos]
    · exact ⟨rfl, rfl, rfl⟩
    · exact heq.symm

/-- Witness for the amended C5: the colliding snake with the apple at
`(0, 0)` resets and neither grows nor relocates the apple. -/
theorem c5_reset_tick_runs_apple_check_witness :
    (new_position (preMoveState collidingGameAppleAway plainInput) ∈
      (preMoveState collidingGameAppleAway plainInput).positions.drop 2) ∧
    collidingGameAppleAway.apple ≠ centerPosition ∧
    tick collidingGameAppleAway plainInput =
      { snake := reset plainInput.resetDir (preMoveState collidingGameAppleAway plainInput),
        apple := collidingGameAppleAway.apple } :=
  ⟨by decide, by decide,
    (c5_reset_tick_runs_apple_check collidingGameAppleAway plainInput (by decide)).1
      (by decide)⟩

/-- C6 counterexample: a reachable five-tick run ending in a reset whose
random draw is `RIGHT` while the direction committed on the previous tick
was `LEFT`: the committed direction after the reset tick is the geometric
opposite of the previous tick's committed direction. -/
theorem c6_counterexample :
    (runTicks rCell17_12 traceInputs4).snake.direction = Dir.left ∧
    new_position (preMoveState (runTicks rCell17_12 traceInputs4) tick5Input) ∈
      (preMoveState (runTicks rCell17_12 traceInputs4) tick5Input).positions.drop 2 ∧
    (runTicks rCell17_12 (traceInputs4 ++ [tick5Input])).snake.direction = Dir.right ∧
    oppositeDir Dir.left = Dir.right := by
  decide

/-- C6 amended: from every reachable state, a tick whose move is not a
reset never commits the geometric opposite of the previously committed
direction; on reset ticks the direction is re-randomized and may be any of
the four directions, including the opposite. -/
theorem c6_no_reversal_without_reset (r0 : RandCell) (is : List TickInput)
    (i : TickInput)
    (hcol : new_position (preMoveState (runTicks r0 is) i) ∉
      (preMoveState (runTicks r0 is) i).positions.drop 2) :
    (tick (runTicks r0 is) i).snake.direction ≠
      oppositeDir (runTicks r0 is).snake.direction := by
  have hnext : (runTicks r0 is).snake.next_direction = none :=
    runTicks_next_direction_none r0 is
  obtain ⟨hdir1, _, _, _, hnext1⟩ := handle_keys_spec i.events (runTicks r0 is).snake
  have hdir2 : (preMoveState (runTicks r0 is) i).direction =
        (runTicks r0 is).snake.direction ∨
      ∃ r, (preMoveState (runTicks r0 is) i).direction = r ∧
        (runTicks r0 is).snake.direction ≠ oppositeDir r := by
    unfold preMoveState
    rcases update_direction_direction (handle_keys i.events (runTicks r0 is).snake)
      with h | h
    · left
      rw [h, hdir1]
    · rcases hnext1 with h1 | ⟨r, hr, hblock⟩
      · rw [hnext] at h1
        rw [h1] at h
        cases h
      · right
        refine ⟨r, ?_, hblock⟩
        rw [hr] at h
        injection h with h2
        rw [h2]
  have hmove : move i.resetDir (preMoveState (runTicks r0 is) i) =
      move_commit (preMoveState (runTicks r0 is) i) := by
    unfold move
    rw [if_neg hcol]
  have htickdir : (tick (runTicks r0 is) i).snake.direction =
      (preMoveState (runTicks r0 is) i).direction := by
    unfold preMoveState at hmove
    simp only [tick, hmove]
    split <;>
      exact (move_commit_preserves _).1
  rw [htickdir]
  rcases hdir2 with h | ⟨r, hr2, hblock⟩
  · rw [h]
    exact ne_oppositeDir_self _
  · rw [hr2]
    intro hcontra
    apply hblock
    rw [hcontra, oppositeDir_involutive]

/-- Witness for the amended C6: the first tick of a fresh game, turning
upward, commits a direction that is not the opposite of the initial one. -/
theorem c6_no_reversal_without_reset_witness :
    (new_position (preMoveState (runTicks rCell0_0 []) ⟨[Dir.up], Dir.down, rCell0_0⟩) ∉
      (preMoveState (runTicks rCell0_0 []) ⟨[Dir.up], Dir.down, rCell0_0⟩).positions.drop 2) ∧
    (tick (runTicks rCell0_0 []) ⟨[Dir.up], Dir.down, rCell0_0⟩).snake.direction ≠
      oppositeDir (runTicks rCell0_0 []).snake.direction :=
  ⟨by decide,
    c6_no_reversal_without_reset rCell0_0 [] ⟨[Dir.up], Dir.down, rCell0_0⟩ (by decide)⟩

/-- Alignment of every cell `randomize_position` can produce: the draw
bounds of the two `randint` calls put the cell on the grid and the board. -/
theorem randomize_position_aligned (r : RandCell) :
    alignedCell (randomize_position r) := by
  obtain ⟨⟨rx, ry⟩, hprop⟩ := r
  obtain ⟨hx0, hx1, hy0, hy1⟩ := hprop
  simp only [GRID_WIDTH, GRID_HEIGHT, SCREEN_WIDTH, SCREEN_HEIGHT, GRID_SIZE] at hx1 hy1
  unfold randomize_position alignedCell
  simp only [GRID_SIZE, SCREEN_WIDTH, SCREEN_HEIGHT]
  refine ⟨?_, ?_, ?_, ?_, ?_, ?_⟩ <;> omega

/-- C8: apple relocation draws bijectively from the full grid — every grid
cell, aligned and in range, arises from exactly one state of the injected
random source — and the draw is accepted without any exclusion check, so
the new apple cell can coincide with a snake segment (here: the initial
snake's only segment). -/
theorem c8_relocate_uniform_full_grid :
    (∀ r : RandCell, alignedCell (randomize_position r)) ∧
    (∀ x y : Int, 0 ≤ x → x < SCREEN_WIDTH → x % GRID_SIZE = 0 →
      0 ≤ y → y < SCREEN_HEIGHT → y % GRID_SIZE = 0 →
      ∃! r : RandCell, randomize_position r = (x, y)) ∧
    (∃ r : RandCell, randomize_position r ∈ initialSnake.positions) := by
  refine ⟨randomize_position_aligned, ?_, ⟨rCell16_12, by decide⟩⟩
  intro x y hx0 hxW hxA hy0 hyH hyA
  simp only [SCREEN_WIDTH, SCREEN_HEIGHT, GRID_SIZE] at hxW hyH hxA hyA
  refine ⟨⟨(x / GRID_SIZE, y / GRID_SIZE), ?_⟩, ?_, ?_⟩
  · simp only [GRID_WIDTH, GRID_HEIGHT, SCREEN_WIDTH, SCREEN_HEIGHT, GRID_SIZE]
    refine ⟨?_, ?_, ?_, ?_⟩ <;> omega
  · simp only [randomize_position, GRID_SIZE, Prod.mk.injEq]
    constructor <;> omega
  · rintro ⟨⟨a, b⟩, hp⟩ heq
    apply Subtype.ext
    simp only [randomize_position, Prod.mk.injEq, GRID_SIZE] at heq
    obtain ⟨h1, h2⟩ := heq
    simp only [Prod.mk.injEq, GRID_SIZE]
    constructor <;> omega

/-- Witness for C8: the draw `(17, 12)` lands on the board aligned, and the
center cell `(320, 240)` arises from exactly one draw. -/
theorem c8_relocate_uniform_full_grid_witness :
    alignedCell (randomize_position rCell17_12) ∧
    (∃! r : RandCell, randomize_position r = (320, 240)) :=
  ⟨c8_relocate_uniform_full_grid.1 rCell17_12,
    c8_relocate_uniform_full_grid.2.1 320 240 (by decide) (by decide) (by decide)
      (by decide) (by decide) (by decide)⟩

/-- C9: when the only directional request of a tick is the geometric
opposite of the current direction, the input layer drops it (the snake
state is unchanged), the direction commit leaves the direction unchanged,
and a subsequent non-reset move still travels in the old direction. -/
theorem c9_opposite_request_ignored (s : SnakeState) (k : Dir)
    (hpend : s.next_direction = none)
    (hk : k = oppositeDir s.direction) :
    handle_keys [k] s = s ∧
    (update_direction (handle_keys [k] s)).direction = s.direction ∧
    ∀ c : Dir, new_position s ∉ s.positions.drop 2 →
      (move c (update_direction (handle_keys [k] s))).direction = s.direction := by
  have h1 : handle_keys [k] s = s := by
    have hblock : ¬s.direction ≠ oppositeDir k := by
      rw [hk, oppositeDir_involutive]
      exact fun h => h rfl
    simp only [handle_keys, List.foldl, handle_one]
    rw [if_neg hblock]
  have h2 : update_direction s = s := by
    simp [update_direction, hpend]
  refine ⟨h1, ?_, ?_⟩
  · rw [h1, h2]
  · intro c hnc
    rw [h1, h2]
    unfold move
    rw [if_neg hnc]
    exact (move_commit_preserves s).1

/-- Witness for C9: a fresh snake moving right ignores a `LEFT` request. -/
theorem c9_opposite_request_ignored_witness :
    handle_keys [Dir.left] initialSnake = initialSnake ∧
    (update_direction (handle_keys [Dir.left] initialSnake)).direction =
      initialSnake.direction ∧
    (move Dir.up (update_direction (handle_keys [Dir.left] initialSnake))).direction =
      initialSnake.direction := by
  have h := c9_opposite_request_ignored initialSnake Dir.left rfl (by decide)
  exact ⟨h.1, h.2.1, h.2.2 Dir.up (by decide)⟩

/-- The screen-center cell is grid-aligned and on the board. -/
theorem alignedCell_center : alignedCell centerPosition := by
  decide

/-- The candidate head cell is aligned and on the board whenever every
current segment is. -/
theorem new_position_aligned (s : SnakeState)
    (h : ∀ p ∈ s.positions, alignedCell p) :
    alignedCell (new_position s) := by
  have hhead : alignedCell (get_head_position s) := by
    cases hp : s.positions with
    | nil =>
      unfold get_head_position
      rw [hp]
      decide
    | cons a tl =>
      have ha : get_head_position s = a := by
        unfold get_head_position
        rw [hp]
        rfl
      rw [ha]
      exact h a (by rw [hp]; exact List.mem_cons_self a tl)
  unfold alignedCell at hhead
  obtain ⟨hx1, hx2, hx3, hy1, hy2, hy3⟩ := hhead
  rw [new_position_eq s (get_head_position s).1 (get_head_position s).2 rfl]
  unfold alignedCell
  simp only [GRID_SIZE, SCREEN_WIDTH, SCREEN_HEIGHT] at *
  cases s.direction <;>
    simp only [dirVec] <;>
    refine ⟨?_, ?_, ?_, ?_, ?_, ?_⟩ <;>
    omega

/-- A move preserves alignment of all segments. -/
theorem move_aligned (c : Dir) (s : SnakeState)
    (h : ∀ p ∈ s.positions, alignedCell p) :
    ∀ p ∈ (move c s).positions, alignedCell p := by
  unfold move
  split
  · intro p hp
    simp only [reset, List.mem_singleton] at hp
    rw [hp]
    exact alignedCell_center
  · intro p hp
    unfold move_commit at hp
    dsimp only at hp
    have hp2 : p ∈ new_position s :: s.positions := by
      split at hp
      · exact List.dropLast_subset _ hp
      · exact hp
    rcases List.mem_cons.mp hp2 with h1 | h1
    · rw [h1]
      exact new_position_aligned s h
    · exact h p h1

/-- C10: in every state reachable from construction by any sequence of
moves, growth increments, resets, pending-direction stores, direction
commits and apple relocations, every snake segment and the apple are
grid-aligned cells inside the board. -/
theorem c10_grid_alignment (r0 : RandCell) (ops : List GameOp) :
    (∀ p ∈ (runOps r0 ops).snake.positions, alignedCell p) ∧
    alignedCell (runOps r0 ops).apple := by
  have inv : ∀ (l : List GameOp) (g : GameState),
      ((∀ p ∈ g.snake.positions, alignedCell p) ∧ alignedCell g.apple) →
      ((∀ p ∈ (l.foldl applyOp g).snake.positions, alignedCell p) ∧
        alignedCell (l.foldl applyOp g).apple) := by
    intro l
    induction l with
    | nil => exact fun g hg => hg
    | cons op rest ih =>
      intro g hg
      apply ih
      obtain ⟨hpos, happle⟩ := hg
      cases op with
      | advance c => exact ⟨move_aligned c g.snake hpos, happle⟩
      | grow => exact ⟨hpos, happle⟩
      | resetOp c =>
        refine ⟨?_, happle⟩
        intro p hp
        simp only [applyOp, reset, List.mem_singleton] at hp
        rw [hp]
        exact alignedCell_center
      | setNext d => exact ⟨hpos, happle⟩
      | updateDir =>
        refine ⟨?_, happle⟩
        have hu := (update_direction_preserves g.snake).1
        intro p hp
        simp only [applyOp] at hp
        rw [hu] at hp
        exact hpos p hp
      | relocate r => exact ⟨hpos, randomize_position_aligned r⟩
  unfold runOps
  apply inv
  constructor
  · intro p hp
    simp only [initialGame, initialSnake, List.mem_singleton] at hp
    rw [hp]
    exact alignedCell_center
  · exact randomize_position_aligned r0

/-- Witness for C10: after one growth increment and two moves from
construction, the head segment `(360, 240)` and the apple are aligned and
on the board. -/
theorem c10_grid_alignment_witness :
    ((360, 240) : Cell) ∈
      (runOps rCell0_0 [GameOp.grow, GameOp.advance Dir.up, GameOp.advance Dir.up]).snake.positions ∧
    alignedCell ((360, 240) : Cell) ∧
    alignedCell (runOps rCell0_0 [GameOp.grow, GameOp.advance Dir.up, GameOp.advance Dir.up]).apple := by
  have h := c10_grid_alignment rCell0_0
    [GameOp.grow, GameOp.advance Dir.up, GameOp.advance Dir.up]
  exact ⟨by decide, h.1 (360, 240) (by decide), h.2⟩

end TheSnake
